import Mathlib

/-!
Verification development for the tessitura repository.

This file gives a shallow embedding, in Lean, of the parts of the code that
the specification claims talk about: the mapping-rules engine
(crates/tessitura-core/src/taxonomy/rules.rs), the harmonize stage
(crates/tessitura-etl/src/harmonize.rs), the title-suffix cleaner of the
identify stage (crates/tessitura-etl/src/identify.rs), the Last.fm tag
conversion (crates/tessitura-etl/src/enrich/lastfm.rs), the fan-out
enrichment stage (crates/tessitura-etl/src/enrich/stage.rs), the
MusicBrainz enricher (crates/tessitura-etl/src/enrich/musicbrainz.rs), and
the catalog store schema plus the item/vocabulary operations
(crates/tessitura-core/src/schema/db.rs, migrations.rs) as exercised by the
scan stage (crates/tessitura-etl/src/scan.rs).

Modelling conventions:
- Rust f64 values are modelled as exact fractions (structure F64 below);
  comparisons are by cross multiplication, which agrees with the real
  ordering whenever denominators are positive, which is the case for every
  value the code constructs.
- serde_json values are modelled by the inductive Json; the compact
  serde_json rendering used by assertion_value_as_str is renderJson.
- Rust HashMap iteration order is unspecified and randomized per map
  instance; functions that iterate a HashMap are therefore parameterized by
  the order in which the distinct keys are visited, constrained by
  ValidOrder to be some enumeration of exactly the keys present.
- External I/O (HTTP fetches, SQLite) is modelled by explicit parameters
  (oracle functions returning Except) and by an explicit store state.
-/

deriving instance DecidableEq for Except

-- ===========================================================================
-- Exact-fraction model of Rust f64
-- ===========================================================================

/-- Exact-fraction model of a Rust f64 value: the value num / den. Every
finite f64 is such a fraction with a positive denominator. Arithmetic is
exact (no rounding); comparisons are by cross multiplication. -/
structure F64 where
  num : Int
  den : Nat
deriving DecidableEq

/-- The denominator is positive, so the fraction denotes a real value. All
f64 values occurring in the code satisfy this. -/
def F64.Pos (c : F64) : Prop := 0 < c.den

instance (c : F64) : Decidable c.Pos := by
  unfold F64.Pos
  infer_instance

/-- Multiplication of fraction values (model of f64 multiplication). -/
def f64Mul (a b : F64) : F64 := ⟨a.num * b.num, a.den * b.den⟩

/-- Less-or-equal by cross multiplication (model of f64 partial_cmp). -/
def f64Le (a b : F64) : Bool := decide (a.num * (b.den : Int) ≤ b.num * (a.den : Int))

/-- Strictly-less by cross multiplication (model of f64 partial_cmp). -/
def f64Lt (a b : F64) : Bool := decide (a.num * (b.den : Int) < b.num * (a.den : Int))

-- ===========================================================================
-- Characters and strings
-- ===========================================================================

/-- Whitespace characters, the ASCII fragment of the regex class used by
the title-cleaning patterns and by Rust str::trim. -/
def isSpace (c : Char) : Bool :=
  c = ' ' || c = '\t' || c = '\n' || c = '\r' || c = '\x0b' || c = '\x0c'

/-- ASCII lower casing of a character (model of Rust to_lowercase on the
ASCII inputs this code handles). -/
def lowerChar (c : Char) : Char := c.toLower

/-- ASCII lower casing of a string (model of Rust str::to_lowercase). -/
def lowerStr (s : String) : String := String.mk (s.data.map lowerChar)

/-- Case-insensitive ASCII equality (model of str::eq_ignore_ascii_case). -/
def eqIgnoreCase (a b : String) : Bool := lowerStr a == lowerStr b

/-- Substring test on character lists: pat occurs somewhere inside hay. -/
def listHasSub (pat : List Char) : List Char → Bool
  | [] => pat.isPrefixOf []
  | c :: cs => pat.isPrefixOf (c :: cs) || listHasSub pat cs

/-- Substring test on strings (model of Rust str::contains with a string
pattern). -/
def strHasSub (hay pat : String) : Bool := listHasSub pat.data hay.data

-- ===========================================================================
-- Sources and JSON values (tessitura-core provenance.rs, serde_json)
-- ===========================================================================

/-- The closed enum of assertion sources (provenance.rs, enum Source). -/
inductive Source where
  | embeddedTag
  | acoustId
  | musicBrainz
  | wikidata
  | lastFm
  | lcgft
  | lcmpt
  | discogs
  | user
deriving DecidableEq

/-- Canonical string name of each source, matching the SOURCE_NAMES table
in rules.rs. -/
def source_to_str (s : Source) : String :=
  match s with
  | .embeddedTag => ("embedded_tag")
  | .acoustId => ("acoustid")
  | .musicBrainz => ("musicbrainz")
  | .wikidata => ("wikidata")
  | .lastFm => ("lastfm")
  | .lcgft => ("lcgft")
  | .lcmpt => ("lcmpt")
  | .discogs => ("discogs")
  | .user => ("user")

/-- Model of serde_json::Value restricted to the shapes this code builds:
strings, integers, booleans, null and objects. -/
inductive Json where
  | str : String → Json
  | int : Int → Json
  | bool : Bool → Json
  | null : Json
  | obj : List (String × Json) → Json

mutual
/-- Compact serde_json rendering of a value (Display for Value), used by
assertion_value_as_str for non-string values. -/
def renderJson : Json → String
  | .str s => ("\"") ++ s ++ ("\"")
  | .int n => toString n
  | .bool b => if b then ("true") else ("false")
  | .null => ("null")
  | .obj kvs => ("\x7b") ++ renderMembers kvs ++ ("\x7d")

/-- Compact rendering of the members of a JSON object. -/
def renderMembers : List (String × Json) → String
  | [] => ("")
  | [(k, v)] => ("\"") ++ k ++ ("\":") ++ renderJson v
  | (k, v) :: rest => ("\"") ++ k ++ ("\":") ++ renderJson v ++ (",") ++ renderMembers rest
end

/-- Model of serde_json Value::as_str: a string for Json.str, none for
every other shape. -/
def jsonAsStr : Json → Option String
  | .str s => some s
  | _ => none

/-- Model of serde_json Value::as_i64: an integer for Json.int, none for
every other shape. -/
def jsonAsInt : Json → Option Int
  | .int n => some n
  | _ => none

/-- A provenance assertion (provenance.rs, struct Assertion). The fetch
timestamp does not influence any claim and is omitted. -/
structure Assertion where
  entity_id : String
  field : String
  value : Json
  source : Source
  confidence : Option F64

-- ===========================================================================
-- Mapping rules (taxonomy/rules.rs)
-- ===========================================================================

/-- A genre mapping rule (rules.rs, struct GenreRule). -/
structure GenreRule where
  name : String
  description : Option String
  match_any : List String
  match_source : List String
  output_genre : Option String
  output_form : Option String
  output_lcgft_label : Option String
  confidence : F64

/-- A period mapping rule (rules.rs, struct PeriodRule). -/
structure PeriodRule where
  name : String
  description : Option String
  match_composer : List String
  output_period : String
  year_range : Option (Int × Int)

/-- An instrument mapping rule (rules.rs, struct InstrumentRule). -/
structure InstrumentRule where
  name : String
  description : Option String
  match_any : List String
  output_instruments : List String
  output_lcmpt_labels : List String

/-- The rules document (rules.rs, struct MappingRules). The TOML
source_priority map has distinct keys; it is modelled as an association
list looked up by exact key. -/
structure MappingRules where
  source_priority : List (String × Nat)
  genre_rules : List GenreRule
  period_rules : List PeriodRule
  instrument_rules : List InstrumentRule

/-- An alternative attached to a winning proposal (rules.rs, struct
Alternative). -/
structure AltProposal where
  value : String
  source : Source
  confidence : F64
deriving DecidableEq

/-- A proposed tag produced by the rules engine (rules.rs, struct
ProposedTag). -/
structure ProposedTag where
  field : String
  value : String
  source : Source
  rule_name : String
  confidence : F64
  alternatives : List AltProposal
deriving DecidableEq

/-- Model of assertion_value_as_str: the string itself for string values,
the compact JSON rendering otherwise. -/
def assertion_value_as_str (a : Assertion) : String :=
  match a.value with
  | .str s => s
  | other => renderJson other

/-- Model of rule_matches_source: an empty allow list admits every source,
otherwise the source name must appear up to ASCII case. -/
def rule_matches_source (match_source : List String) (source_name : String) : Bool :=
  if match_source.isEmpty then true
  else match_source.any (fun allowed => eqIgnoreCase allowed source_name)

/-- Model of rule_matches_value: some pattern, lower cased, is a substring
of the already lower-cased assertion value; an empty pattern list never
matches. -/
def rule_matches_value (match_any : List String) (assertion_lower : String) : Bool :=
  if match_any.isEmpty then false
  else match_any.any (fun pat => strHasSub assertion_lower (lowerStr pat))

/-- Priority lookup used inside deduplicate_proposals: exact lookup of the
canonical (lower-case) source name, then of its lower casing, defaulting
to 0. -/
def get_priority (source_priority : List (String × Nat)) (s : Source) : Nat :=
  let name := source_to_str s
  (((source_priority.lookup name).orElse
      (fun _ => source_priority.lookup (lowerStr name))).getD 0)

/-- The fields relevant to genre rules (apply_genre_rules). -/
def genreRelevantField (f : String) : Bool :=
  f == ("genre") || f == ("style") || f == ("form") || f == ("tag")

/-- Default assertion confidence 1.0 (confidence.unwrap_or(1.0)). -/
def assertionConfidence (a : Assertion) : F64 := a.confidence.getD ⟨1, 1⟩

/-- The proposals one matching genre rule emits for one assertion: one per
populated output field, in source order genre, form, lcgft label. The
lcgft label is emitted against the genre field, as in the code. -/
def genreRuleOutputs (r : GenreRule) (a : Assertion) : List ProposedTag :=
  let combined := f64Mul r.confidence (assertionConfidence a)
  (match r.output_genre with
   | some g => [⟨("genre"), g, a.source, r.name, combined, []⟩]
   | none => []) ++
  (match r.output_form with
   | some f => [⟨("form"), f, a.source, r.name, combined, []⟩]
   | none => []) ++
  (match r.output_lcgft_label with
   | some l => [⟨("genre"), l, a.source, r.name, combined, []⟩]
   | none => [])

/-- Raw genre proposals before deduplication: the double loop of
apply_genre_rules over relevant assertions and rules. -/
def rawGenreProposals (rules : MappingRules) (assertions : List Assertion) : List ProposedTag :=
  (assertions.filter (fun a => genreRelevantField a.field)).flatMap (fun a =>
    rules.genre_rules.flatMap (fun r =>
      if rule_matches_source r.match_source (source_to_str a.source) &&
         rule_matches_value r.match_any (lowerStr (assertion_value_as_str a)) then
        genreRuleOutputs r a
      else []))

/-- The fields relevant to instrument rules (apply_instrument_rules). -/
def instrumentRelevantField (f : String) : Bool :=
  f == ("instrumentation") || f == ("instrument") || f == ("ensemble")

/-- Raw instrument proposals before deduplication: the double loop of
apply_instrument_rules. The confidence base is the fixed 0.8 of the code. -/
def rawInstrumentProposals (rules : MappingRules) (assertions : List Assertion) :
    List ProposedTag :=
  (assertions.filter (fun a => instrumentRelevantField a.field)).flatMap (fun a =>
    rules.instrument_rules.flatMap (fun r =>
      if rule_matches_value r.match_any (lowerStr (assertion_value_as_str a)) then
        r.output_instruments.map (fun instrument =>
          ⟨("instrumentation"), instrument, a.source, r.name,
            f64Mul ⟨8, 10⟩ (assertionConfidence a), []⟩)
      else []))

-- ===========================================================================
-- Deduplication (rules.rs, deduplicate_proposals)
-- ===========================================================================

/-- The grouping key of a proposal: the pair (field, value). -/
def tagKey (p : ProposedTag) : String × String := (p.field, p.value)

/-- The group of proposals sharing a key, in original order (the order in
which deduplicate_proposals pushes them into the per-key vector). -/
def groupFor (props : List ProposedTag) (k : String × String) : List ProposedTag :=
  props.filter (fun p => decide (tagKey p = k))

/-- Comparator of the sort inside deduplicate_proposals, as the reflexive
relation "a may come no later than b": a has strictly higher priority, or
equal priority and confidence at least b. The stable sort of Rust with
the comparator (priority descending, then confidence descending) sorts
exactly by this relation. -/
def tagGE (sp : List (String × Nat)) (a b : ProposedTag) : Prop :=
  get_priority sp b.source < get_priority sp a.source ∨
    (get_priority sp a.source = get_priority sp b.source ∧ f64Le b.confidence a.confidence = true)

instance (sp : List (String × Nat)) : DecidableRel (tagGE sp) := fun a b => by
  unfold tagGE
  infer_instance

/-- The sorted form of a group: stable sort by priority descending then
confidence descending (slice::sort_by in deduplicate_proposals). -/
def sortGroup (sp : List (String × Nat)) (group : List ProposedTag) : List ProposedTag :=
  List.insertionSort (tagGE sp) group

/-- Projection of a losing proposal to the alternative attached to the
winner, keeping its value, source and confidence. -/
def toAlternative (p : ProposedTag) : AltProposal := ⟨p.value, p.source, p.confidence⟩

/-- The winner of a non-empty group: the head of the sorted group, with
every remaining member appended to its alternatives. -/
def mkWinner (sp : List (String × Nat)) (group : List ProposedTag) : Option ProposedTag :=
  match sortGroup sp group with
  | [] => none
  | w :: rest =>
    some { w with alternatives := w.alternatives ++ rest.map toAlternative }

/-- An admissible HashMap iteration order over the groups: an enumeration,
without repetition, of exactly the keys occurring among the proposals.
Rust HashMap yields its entries in an unspecified, per-instance randomized
order, so deduplicate_proposals is modelled for every such order. -/
def ValidOrder (props : List ProposedTag) (ord : List (String × String)) : Prop :=
  ord.Nodup ∧ (∀ k ∈ ord, k ∈ props.map tagKey) ∧ (∀ k ∈ props.map tagKey, k ∈ ord)

instance (props : List ProposedTag) (ord : List (String × String)) :
    Decidable (ValidOrder props ord) := by
  unfold ValidOrder
  infer_instance

/-- One admissible order: the distinct keys in first-occurrence order. -/
def keysIn (props : List ProposedTag) : List (String × String) :=
  props.foldl (fun acc p => if tagKey p ∈ acc then acc else acc ++ [tagKey p]) []

/-- Model of deduplicate_proposals: group the proposals by (field, value),
visit the groups in the given HashMap order, and emit the winner of each
group with the losers as its alternatives. -/
def deduplicate_proposals (sp : List (String × Nat)) (props : List ProposedTag)
    (ord : List (String × String)) : List ProposedTag :=
  ord.filterMap (fun k => mkWinner sp (groupFor props k))

/-- Model of MappingRules::apply_genre_rules, parameterized by the HashMap
group order (see ValidOrder). -/
def apply_genre_rules (rules : MappingRules) (assertions : List Assertion)
    (ord : List (String × String)) : List ProposedTag :=
  deduplicate_proposals rules.source_priority (rawGenreProposals rules assertions) ord

/-- Model of MappingRules::apply_instrument_rules, parameterized by the
HashMap group order (see ValidOrder). -/
def apply_instrument_rules (rules : MappingRules) (assertions : List Assertion)
    (ord : List (String × String)) : List ProposedTag :=
  deduplicate_proposals rules.source_priority (rawInstrumentProposals rules assertions) ord

-- ===========================================================================
-- Period rules (rules.rs, apply_period_rules)
-- ===========================================================================

/-- The proposal a period rule emits, at the given confidence. -/
def periodTag (r : PeriodRule) (conf : F64) : ProposedTag :=
  ⟨("period"), r.output_period, Source.wikidata, r.name, conf, []⟩

/-- First pass of apply_period_rules: the first rule with a non-empty
match_composer list one of whose patterns is an ASCII-case-insensitive
substring of the composer, at confidence 0.9. -/
def periodComposerPass (rules : MappingRules) (composer : Option String) : Option ProposedTag :=
  composer.bind (fun c =>
    let cl := lowerStr c
    rules.period_rules.findSome? (fun r =>
      if r.match_composer.isEmpty then none
      else if r.match_composer.any (fun pat => strHasSub cl (lowerStr pat)) then
        some (periodTag r ⟨9, 10⟩)
      else none))

/-- Second pass of apply_period_rules: the first rule whose year range
contains the year, both endpoints included, at confidence 0.7. -/
def periodYearPass (rules : MappingRules) (year : Option Int) : Option ProposedTag :=
  year.bind (fun y =>
    rules.period_rules.findSome? (fun r =>
      match r.year_range with
      | some (ystart, yend) =>
        if ystart ≤ y ∧ y ≤ yend then some (periodTag r ⟨7, 10⟩) else none
      | none => none))

/-- Model of MappingRules::apply_period_rules: the composer pass, and on
its failure the year pass. -/
def apply_period_rules (rules : MappingRules) (composer : Option String) (year : Option Int) :
    Option ProposedTag :=
  (periodComposerPass rules composer).orElse (fun _ => periodYearPass rules year)

-- ===========================================================================
-- Harmonize stage (tessitura-etl harmonize.rs)
-- ===========================================================================

/-- Outcome of a stage execution (treadle StageOutcome as used here). -/
inductive StageOutcome where
  | complete
  | needsReview
  | fanOut (subtasks : List String)
deriving DecidableEq

/-- Wrap an integer into i32 range, the effect of the as-i32 cast applied
to the year hint. -/
def i32Wrap (n : Int) : Int := (n + 2 ^ 31) % 2 ^ 32 - 2 ^ 31

/-- The composer hint of the harmonize stage: the first assertion whose
field is composer, kept only if its JSON value is a string. -/
def composerHint (assertions : List Assertion) : Option String :=
  (assertions.find? (fun a => a.field == ("composer"))).bind (fun a => jsonAsStr a.value)

/-- The year hint of the harmonize stage: the first assertion whose field
is composed_year or year, kept only if its JSON value is an integer, cast
to i32. -/
def yearHint (assertions : List Assertion) : Option Int :=
  ((assertions.find? (fun a => a.field == ("composed_year") || a.field == ("year"))).bind
    (fun a => jsonAsInt a.value)).map i32Wrap

/-- The combined proposal list of the harmonize stage: genre proposals,
then the optional period proposal, then instrument proposals. The two
HashMap orders parameterize the two deduplications. -/
def harmonizeProposals (rules : MappingRules) (assertions : List Assertion)
    (gOrd iOrd : List (String × String)) : List ProposedTag :=
  apply_genre_rules rules assertions gOrd ++
    (apply_period_rules rules (composerHint assertions) (yearHint assertions)).toList ++
    apply_instrument_rules rules assertions iOrd

/-- The outcome of HarmonizeStage::execute as a function of the loaded
assertions: complete at once when there are none; otherwise needs-review
when some proposal has alternatives, complete when there are no proposals,
and needs-review otherwise. -/
def harmonizeOutcome (rules : MappingRules) (assertions : List Assertion)
    (gOrd iOrd : List (String × String)) : StageOutcome :=
  if assertions.isEmpty then .complete
  else
    let props := harmonizeProposals rules assertions gOrd iOrd
    if props.any (fun p => !p.alternatives.isEmpty) then .needsReview
    else if props.isEmpty then .complete
    else .needsReview

-- ===========================================================================
-- Title cleaning (tessitura-etl identify.rs, strip_title_suffix)
-- ===========================================================================

/-- Consume a literal character sequence. -/
def litChars (pat : List Char) (l : List Char) : Option (List Char) :=
  if pat.isPrefixOf l then some (l.drop pat.length) else none

/-- Consume one or more whitespace characters greedily, the regex atom of
one-or-more spaces followed in every pattern by a non-space. -/
def spacesPlus (l : List Char) : Option (List Char) :=
  match l with
  | c :: r => if isSpace c then some (r.dropWhile isSpace) else none
  | [] => none

/-- Consume exactly four digits. -/
def digits4 : List Char → Option (List Char)
  | a :: b :: c :: d :: r =>
    if a.isDigit && b.isDigit && c.isDigit && d.isDigit then some r else none
  | _ => none

/-- Consume one or more digits greedily, the regex atom of one-or-more
digits followed in the pattern by a dash. -/
def digitsPlus (l : List Char) : Option (List Char) :=
  match l with
  | c :: r => if c.isDigit then some (r.dropWhile Char.isDigit) else none
  | [] => none

/-- Consume a sequence of literal words separated by one-or-more spaces. -/
def wordSeq : List String → List Char → Option (List Char)
  | [], l => some l
  | [w], l => litChars w.data l
  | w :: rest, l => do
    let r1 ← litChars w.data l
    let r2 ← spacesPlus r1
    wordSeq rest r2

/-- Consume either the upper or lower case initial of the word remaster
followed by its tail, the character class of R or r. -/
def remasterWord (l : List Char) : Option (List Char) :=
  match l with
  | 'R' :: t => litChars (("emaster").data) t
  | 'r' :: t => litChars (("emaster").data) t
  | _ => none

/-- Consume an optional literal ed then a closing parenthesis, with the
backtracking of the optional regex group. -/
def optEdParen (l : List Char) : Option (List Char) :=
  match l with
  | 'e' :: 'd' :: ')' :: r => some r
  | ')' :: r => some r
  | _ => none

/-- Matcher for the pattern of optional spaces, an open parenthesis, four
digits, spaces, remaster with optional ed, close parenthesis — the first
title-cleaning regex. Returns the remainder after the match. -/
def matchYearRemaster (l : List Char) : Option (List Char) :=
  match l.dropWhile isSpace with
  | '(' :: r1 => do
    let r2 ← digits4 r1
    let r3 ← spacesPlus r2
    let r4 ← remasterWord r3
    optEdParen r4
  | _ => none

/-- Matcher for the second title-cleaning regex: remaster with optional
ed, then spaces and four digits inside parentheses. The optional ed group
backtracks as in the regex. -/
def matchRemasterYear (l : List Char) : Option (List Char) :=
  let tail (t : List Char) : Option (List Char) := do
    let t1 ← spacesPlus t
    let t2 ← digits4 t1
    match t2 with
    | ')' :: r => some r
    | _ => none
  match l.dropWhile isSpace with
  | '(' :: r1 => do
    let r2 ← remasterWord r1
    match r2 with
    | 'e' :: 'd' :: t => (tail t).orElse (fun _ => tail r2)
    | _ => tail r2
  | _ => none

/-- Matcher for the third title-cleaning regex: digits, a dash, bit, then
Studio Master inside parentheses. -/
def matchBitStudioMaster (l : List Char) : Option (List Char) :=
  match l.dropWhile isSpace with
  | '(' :: r1 => do
    let r2 ← digitsPlus r1
    let r3 ← litChars (("-bit").data) r2
    let r4 ← spacesPlus r3
    let r5 ← wordSeq [("Studio"), ("Master")] r4
    match r5 with
    | ')' :: r => some r
    | _ => none
  | _ => none

/-- Matcher for a parenthesized phrase of literal words separated by
spaces, after optional leading spaces — the shape of the remaining five
title-cleaning regexes. -/
def matchParenPhrase (ws : List String) (l : List Char) : Option (List Char) :=
  match l.dropWhile isSpace with
  | '(' :: r1 => do
    let r2 ← wordSeq ws r1
    match r2 with
    | ')' :: r => some r
    | _ => none
  | _ => none

/-- Replace the first (leftmost) match of the matcher by nothing: the
behaviour of Regex::replace with an empty replacement. -/
def replaceFirstAux (m : List Char → Option (List Char)) : List Char → List Char
  | [] =>
    match m [] with
    | some r => r
    | none => []
  | c :: cs =>
    match m (c :: cs) with
    | some r => r
    | none => c :: replaceFirstAux m cs

/-- String form of replaceFirstAux. -/
def replaceFirst (m : List Char → Option (List Char)) (s : String) : String :=
  String.mk (replaceFirstAux m s.data)

/-- The eight title-cleaning patterns of strip_title_suffix, in source
order. -/
def titlePatterns : List (List Char → Option (List Char)) :=
  [matchYearRemaster,
   matchRemasterYear,
   matchBitStudioMaster,
   matchParenPhrase [("Studio"), ("Master")],
   matchParenPhrase [("Deluxe"), ("Edition")],
   matchParenPhrase [("Expanded"), ("Edition")],
   matchParenPhrase [("Anniversary"), ("Edition")],
   matchParenPhrase [("Bonus"), ("Track"), ("Version")]]

/-- Remove leading and trailing whitespace (str::trim). -/
def trimStr (s : String) : String :=
  String.mk (((s.data.dropWhile isSpace).reverse.dropWhile isSpace).reverse)

/-- Model of IdentifyStage::strip_title_suffix: apply each pattern in turn,
replacing its first match by nothing, then trim the result. -/
def strip_title_suffix (title : String) : String :=
  trimStr (titlePatterns.foldl (fun acc m => replaceFirst m acc) title)

-- ===========================================================================
-- Last.fm tag conversion (tessitura-etl enrich/lastfm.rs)
-- ===========================================================================

/-- A folksonomy tag with its popularity count (struct LastFmTag). -/
structure LastFmTag where
  name : String
  count : Nat
deriving DecidableEq

/-- The minimum count for a tag to be kept (const MIN_TAG_COUNT). -/
def MIN_TAG_COUNT : Nat := 10

/-- The maximum count over a tag fetch, defaulting to 1 for an empty
fetch (max().unwrap_or(1)). -/
def maxTagCount : List LastFmTag → Nat
  | [] => 1
  | t :: ts => (ts.map (fun u => u.count)).foldl max t.count

/-- Model of LastFmEnricher::tags_to_assertions: keep tags whose count
reaches the threshold, and emit for each one assertion with field tag,
source Last.fm, the name, count and scope in the value, and confidence
count over the maximum count of the whole fetch. -/
def tags_to_assertions (min_tag_count : Nat) (tags : List LastFmTag)
    (entity_id scope : String) : List Assertion :=
  let max_count := maxTagCount tags
  (tags.filter (fun t => min_tag_count ≤ t.count)).map (fun t =>
    { entity_id := entity_id
      field := ("tag")
      value := Json.obj
        [(("name"), Json.str t.name), (("count"), Json.int t.count),
          (("scope"), Json.str scope)]
      source := Source.lastFm
      confidence := some ⟨(t.count : Int), max_count⟩ })

/-- The denominator of the confidence as the claim words it: the maximum
count over all tags of the fetch, dropped ones included, and 1 when the
fetch is empty. -/
def lastFmConfDen (tags : List LastFmTag) : Nat :=
  if tags.isEmpty then 1 else (tags.map (fun t => t.count)).foldr max 0

/-- The assertion the claim describes for one surviving tag. -/
def lastFmClaimAssertion (tags : List LastFmTag) (entity_id scope : String)
    (t : LastFmTag) : Assertion :=
  { entity_id := entity_id
    field := ("tag")
    value := Json.obj
      [(("name"), Json.str t.name), (("count"), Json.int t.count),
        (("scope"), Json.str scope)]
    source := Source.lastFm
    confidence := some ⟨(t.count : Int), lastFmConfDen tags⟩ }

/-- The output as the claim describes it: no assertion for a tag under 10,
exactly one claim-shaped assertion per tag at 10 or above. -/
def tagsToAssertionsClaim (tags : List LastFmTag) (entity_id scope : String) :
    List Assertion :=
  tags.foldr (fun t acc =>
    if t.count < 10 then acc else lastFmClaimAssertion tags entity_id scope t :: acc) []

-- ===========================================================================
-- Fan-out enrichment stage (tessitura-etl enrich/stage.rs)
-- ===========================================================================

/-- The error enum of the enrichment data plane (tessitura-etl error.rs,
enum EnrichError), with the payloads the claims need. -/
inductive EnrichError where
  | http (source_name message : String)
  | rateLimited (source_name : String)
  | notFound (entity source_name : String)
  | parseError (source_name message : String)
  | request (message : String)
  | database (message : String)
  | circuitOpen (source_name : String)
deriving DecidableEq

/-- A stage-level error (treadle TreadleError::StageExecution carrying a
message). -/
structure StageError where
  message : String
deriving DecidableEq

/-- The outcome of one enrichment subtask body (enrich_from_musicbrainz,
enrich_from_wikidata, enrich_from_lastfm, enrich_from_discogs): guided by
whether the enricher is configured, the result of the read phase (open the
store, load the item, extract the lookup datum, which may be absent), and
the result of the provider call with the assertions it stored. A provider
result is consumed only to log it; both branches fall through to the same
return. -/
def enrichSubtaskBody {α : Type} (available : Bool)
    (readPhase : Except StageError (Option α))
    (provider : Except EnrichError (List Assertion)) : Except StageError StageOutcome :=
  if !available then .error ⟨("enricher not available")⟩
  else
    match readPhase with
    | .error e => .error e
    | .ok none => .ok .complete
    | .ok (some _) =>
      match provider with
      | .ok _ => .ok .complete
      | .error _ => .ok .complete

/-- The per-subtask dispatch of EnrichStage::execute: the first call (no
subtask name) fans out to the enabled sources; a named call runs the
corresponding subtask body; an unknown name is a stage error. Each
subtask is parameterized by its own read-phase and provider results. -/
def executeEnrich {α : Type} (mb wd lf dg : Bool) (subtaskName : Option String)
    (readPhase : Except StageError (Option α))
    (provider : Except EnrichError (List Assertion)) : Except StageError StageOutcome :=
  match subtaskName with
  | none =>
    let subtasks :=
      (if mb then [("musicbrainz")] else []) ++ (if wd then [("wikidata")] else []) ++
        (if lf then [("lastfm")] else []) ++ (if dg then [("discogs")] else [])
    if subtasks.isEmpty then .ok .complete else .ok (.fanOut subtasks)
  | some name =>
    if name = ("musicbrainz") then enrichSubtaskBody mb readPhase provider
    else if name = ("wikidata") then enrichSubtaskBody wd readPhase provider
    else if name = ("lastfm") then enrichSubtaskBody lf readPhase provider
    else if name = ("discogs") then enrichSubtaskBody dg readPhase provider
    else .error ⟨("Unknown enrichment subtask: ") ++ name⟩

/-- The assertions one subtask leaves in the store: those its enricher
wrote when the provider calls succeeded, none when the provider failed
(each enricher stores only what it returns). -/
def subtaskStored (provider : Except EnrichError (List Assertion)) : List Assertion :=
  match provider with
  | .ok asserts => asserts
  | .error _ => []

/-- The assertions the whole fan-out leaves in the store: the subtasks are
independent, so the store receives the union of what each stored. -/
def fanOutStored (providers : List (Except EnrichError (List Assertion))) : List Assertion :=
  (providers.map subtaskStored).flatten

-- ===========================================================================
-- MusicBrainz enricher (tessitura-etl enrich/musicbrainz.rs)
-- ===========================================================================

/-- An artist reference in a MusicBrainz response (name and mbid). -/
structure MBArtist where
  name : String
  id : String

/-- An artist credit of a recording. -/
structure MBArtistCredit where
  artist : MBArtist

/-- A work reference inside a recording relation. -/
structure MBWorkRef where
  id : String
  title : String

/-- A relation of a recording (relation_type and optional work). -/
structure MBRecRelation where
  relation_type : String
  work : Option MBWorkRef

/-- A relation of a work (relation_type and optional artist). -/
structure MBWorkRelation where
  relation_type : String
  artist : Option MBArtist

/-- A work response (get_work): title, mbid, free-form attributes and
relations. -/
structure MBWork where
  id : String
  title : String
  attributes : List String
  relations : List MBWorkRelation

/-- A release reference inside a recording response. -/
structure MBReleaseRef where
  id : String
  title : String

/-- Label info of a release: optional label (name and mbid) and optional
catalog number. -/
structure MBLabelInfo where
  label : Option MBArtist
  catalog_number : Option String

/-- A release response (get_release): optional date and label info. -/
structure MBRelease where
  id : String
  date : Option String
  label_info : List MBLabelInfo

/-- A recording response (get_recording): title, optional artist credits,
relations and optional releases. -/
structure MBRecording where
  title : String
  artist_credit : Option (List MBArtistCredit)
  relations : List MBRecRelation
  releases : Option (List MBReleaseRef)

/-- Parse of an optional sign and digits into an i32 (str::parse), none on
empty, malformed or out-of-range input. -/
def parseI32 (s : String) : Option Int :=
  let core : Option (List Char) :=
    match s.data with
    | '+' :: rest => some rest
    | '-' :: rest => some rest
    | rest => some rest
  match core with
  | some [] => none
  | some ds =>
    if ds.all Char.isDigit then
      let mag : Int := ds.foldl (fun acc c => acc * 10 + ((c.toNat - 48 : Nat) : Int)) 0
      let v : Int := if s.data.head? = some '-' then -mag else mag
      if -(2 ^ 31) ≤ v ∧ v ≤ 2 ^ 31 - 1 then some v else none
    else none
  | none => none

/-- The prefix of a date string before the first dash (date.split at dash,
first fragment). -/
def datePrefix (s : String) : String :=
  String.mk (s.data.takeWhile (fun c => c ≠ '-'))

/-- Model of MusicBrainzEnricher::enrich_work for an already fetched work:
work title and mbid assertions, a key assertion at confidence 0.9 for each
attribute containing major or minor case-insensitively, and a composer
assertion at confidence 0.95, with an object value of name and mbid, for
each composer relation carrying an artist. -/
def enrich_work_assertions (entity_id : String) (work : MBWork) : List Assertion :=
  [⟨entity_id, ("work_title"), Json.str work.title, Source.musicBrainz, none⟩,
   ⟨entity_id, ("work_musicbrainz_id"), Json.str work.id, Source.musicBrainz, none⟩] ++
  (work.attributes.filter (fun attr =>
      strHasSub (lowerStr attr) (("major")) || strHasSub (lowerStr attr) (("minor")))).map
    (fun attr => ⟨entity_id, ("key"), Json.str attr, Source.musicBrainz, some ⟨9, 10⟩⟩) ++
  (work.relations.filterMap (fun rel =>
    if rel.relation_type = ("composer") then
      rel.artist.map (fun artist =>
        ⟨entity_id, ("composer"),
          Json.obj [(("name"), Json.str artist.name), (("musicbrainz_id"), Json.str artist.id)],
          Source.musicBrainz, some ⟨95, 100⟩⟩)
    else none))

/-- Model of MusicBrainzEnricher::enrich_work including the fetch: the
work oracle gives the response for an mbid or the transport error, which
propagates. -/
def enrich_work (getWork : String → Except EnrichError MBWork) (work_mbid entity_id : String) :
    Except EnrichError (List Assertion) :=
  match getWork work_mbid with
  | .error e => .error e
  | .ok work => .ok (enrich_work_assertions entity_id work)

/-- The work-relation loop of enrich_recording: for every performance
relation carrying a work, the work enrichment runs and its error
propagates. -/
def workRelationAssertions (getWork : String → Except EnrichError MBWork) (entity_id : String) :
    List MBRecRelation → Except EnrichError (List Assertion)
  | [] => .ok []
  | rel :: rest =>
    if rel.relation_type = ("performance") then
      match rel.work with
      | some w =>
        match enrich_work getWork w.id entity_id with
        | .error e => .error e
        | .ok here =>
          match workRelationAssertions getWork entity_id rest with
          | .error e => .error e
          | .ok there => .ok (here ++ there)
      | none => workRelationAssertions getWork entity_id rest
    else workRelationAssertions getWork entity_id rest

/-- Model of MusicBrainzEnricher::enrich_release for an already fetched
release: a release-year assertion when the date prefix parses, then label
and catalog-number assertions per label info, all at confidence 0.95. -/
def enrich_release_assertions (entity_id : String) (release : MBRelease) : List Assertion :=
  (match release.date with
   | some date =>
     match parseI32 (datePrefix date) with
     | some year =>
       [⟨entity_id, ("release_year"), Json.int year, Source.musicBrainz, some ⟨95, 100⟩⟩]
     | none => []
   | none => []) ++
  release.label_info.flatMap (fun info =>
    (match info.label with
     | some label =>
       [⟨entity_id, ("label"),
          Json.obj [(("name"), Json.str label.name), (("musicbrainz_id"), Json.str label.id)],
          Source.musicBrainz, some ⟨95, 100⟩⟩]
     | none => []) ++
    (match info.catalog_number with
     | some catno =>
       [⟨entity_id, ("catalog_number"), Json.str catno, Source.musicBrainz, some ⟨95, 100⟩⟩]
     | none => []))

/-- Model of MusicBrainzEnricher::enrich_recording: the recording title
assertion, an artist assertion (object of name and mbid) per artist
credit, the work enrichment per performance relation, and the release
enrichment of the first release when present. Oracle functions stand for
the rate-limited fetches; their errors propagate. -/
def enrich_recording (getWork : String → Except EnrichError MBWork)
    (getRelease : String → Except EnrichError MBRelease)
    (recording : MBRecording) (entity_id : String) : Except EnrichError (List Assertion) :=
  match workRelationAssertions getWork entity_id recording.relations with
  | .error e => .error e
  | .ok workAs =>
    match
      (match recording.releases with
       | some (release :: _) =>
         match getRelease release.id with
         | .error e => Except.error e
         | .ok rel => Except.ok (enrich_release_assertions entity_id rel)
       | _ => Except.ok ([] : List Assertion)) with
    | .error e => .error e
    | .ok relAs =>
      .ok ((⟨entity_id, ("title"), Json.str recording.title, Source.musicBrainz, none⟩ ::
        (recording.artist_credit.getD []).map (fun credit =>
          ⟨entity_id, ("artist"),
            Json.obj [(("name"), Json.str credit.artist.name),
              (("musicbrainz_id"), Json.str credit.artist.id)],
            Source.musicBrainz, none⟩)) ++ workAs ++ relAs)

-- ===========================================================================
-- Catalog store (tessitura-core schema/db.rs, schema/migrations.rs)
-- ===========================================================================

/-- A store error (rusqlite failures as surfaced through the database
error kind): a statement against a missing table, or a violated
uniqueness constraint. -/
inductive DbError where
  | noSuchTable (table : String)
  | uniqueViolation (table column : String)
deriving DecidableEq

/-- A controlled-vocabulary term; LcgftTerm and LcmptTerm (taxonomy
genre.rs and instrumentation.rs) share this shape of uri, label, optional
broader uri and optional scope note. -/
structure VocabTerm where
  uri : String
  label : String
  broader_uri : Option String
  scope_note : Option String
deriving DecidableEq

/-- A row of the items table; the columns that bear on the claims. The
fingerprint is deliberately empty after scan. -/
structure ItemRow where
  id : String
  file_path : String
  format : String
  file_size : Nat
  fingerprint : Option String
  tag_title : Option String
  tag_artist : Option String
  tag_album : Option String
  duration_secs : Option F64
deriving DecidableEq

/-- The store state: which tables exist, and the rows of the tables the
claims touch. -/
structure DbState where
  tables : List String
  items : List ItemRow
  lcgft_terms : List VocabTerm
  lcmpt_terms : List VocabTerm
  schema_migrations : List (Nat × String)
deriving DecidableEq

/-- A migration: its version, name, and the tables its DDL batch creates. -/
structure Migration where
  version : Nat
  name : String
  tables : List String

/-- The tables created by the DDL batch of MIGRATION_001 (initial_schema)
in migrations.rs: exactly the create-table statements of that SQL text.
No vocabulary table is among them. -/
def MIGRATION_001_TABLES : List String :=
  [("schema_migrations"), ("works"), ("expressions"), ("manifestations"), ("items"),
   ("artists"), ("artist_roles"), ("expression_performers"),
   ("manifestation_expressions"), ("assertions")]

/-- The shipped migration list (const MIGRATIONS in migrations.rs): the
single entry of version 1, initial_schema. -/
def MIGRATIONS : List Migration := [⟨1, ("initial_schema"), MIGRATION_001_TABLES⟩]

/-- Model of Database::apply_migrations: every migration whose version is
not yet recorded runs its DDL batch (create table if not exists) and is
recorded in schema_migrations. -/
def apply_migrations (db : DbState) : DbState :=
  MIGRATIONS.foldl (fun db m =>
    if (db.schema_migrations.map Prod.fst).contains m.version then db
    else
      { db with
        tables := db.tables ++ m.tables.filter (fun t => !db.tables.contains t)
        schema_migrations := db.schema_migrations ++ [(m.version, m.name)] }) db

/-- A fresh store before migrations: only the schema_migrations table,
which apply_migrations creates unconditionally, exists. -/
def emptyDb : DbState := ⟨[("schema_migrations")], [], [], [], []⟩

/-- Model of Database::open on a fresh path: create the store and apply
all pending migrations. -/
def open_database : DbState := apply_migrations emptyDb

/-- Insert-or-replace of a vocabulary term keyed on its uri. -/
def upsertTerm (terms : List VocabTerm) (t : VocabTerm) : List VocabTerm :=
  if terms.any (fun u => u.uri = t.uri) then
    terms.map (fun u => if u.uri = t.uri then t else u)
  else terms ++ [t]

/-- Sort vocabulary terms by label ascending (order by label). -/
def sortByLabel (terms : List VocabTerm) : List VocabTerm :=
  List.insertionSort (fun a b => a.label ≤ b.label) terms

/-- Model of Database::insert_lcgft_term: an insert-or-replace into
lcgft_terms, which fails when that table does not exist. No shipped
migration creates it. -/
def insert_lcgft_term (db : DbState) (t : VocabTerm) : Except DbError DbState :=
  if db.tables.contains (("lcgft_terms")) then
    .ok { db with lcgft_terms := upsertTerm db.lcgft_terms t }
  else .error (.noSuchTable ("lcgft_terms"))

/-- Model of Database::get_lcgft_by_label: the first term whose label
matches case-insensitively (collate nocase), behind the same
missing-table guard. -/
def get_lcgft_by_label (db : DbState) (label : String) : Except DbError (Option VocabTerm) :=
  if db.tables.contains (("lcgft_terms")) then
    .ok (db.lcgft_terms.find? (fun t => eqIgnoreCase t.label label))
  else .error (.noSuchTable ("lcgft_terms"))

/-- Model of Database::get_lcgft_narrower: the terms whose broader uri is
the given one, ordered by label. -/
def get_lcgft_narrower (db : DbState) (uri : String) : Except DbError (List VocabTerm) :=
  if db.tables.contains (("lcgft_terms")) then
    .ok (sortByLabel (db.lcgft_terms.filter (fun t => t.broader_uri = some uri)))
  else .error (.noSuchTable ("lcgft_terms"))

/-- Model of Database::count_lcgft_terms. -/
def count_lcgft_terms (db : DbState) : Except DbError Nat :=
  if db.tables.contains (("lcgft_terms")) then .ok db.lcgft_terms.length
  else .error (.noSuchTable ("lcgft_terms"))

/-- Model of Database::insert_lcmpt_term, as for the lcgft twin. -/
def insert_lcmpt_term (db : DbState) (t : VocabTerm) : Except DbError DbState :=
  if db.tables.contains (("lcmpt_terms")) then
    .ok { db with lcmpt_terms := upsertTerm db.lcmpt_terms t }
  else .error (.noSuchTable ("lcmpt_terms"))

/-- Model of Database::get_lcmpt_by_label. -/
def get_lcmpt_by_label (db : DbState) (label : String) : Except DbError (Option VocabTerm) :=
  if db.tables.contains (("lcmpt_terms")) then
    .ok (db.lcmpt_terms.find? (fun t => eqIgnoreCase t.label label))
  else .error (.noSuchTable ("lcmpt_terms"))

/-- Model of Database::get_lcmpt_narrower. -/
def get_lcmpt_narrower (db : DbState) (uri : String) : Except DbError (List VocabTerm) :=
  if db.tables.contains (("lcmpt_terms")) then
    .ok (sortByLabel (db.lcmpt_terms.filter (fun t => t.broader_uri = some uri)))
  else .error (.noSuchTable ("lcmpt_terms"))

/-- Model of Database::count_lcmpt_terms. -/
def count_lcmpt_terms (db : DbState) : Except DbError Nat :=
  if db.tables.contains (("lcmpt_terms")) then .ok db.lcmpt_terms.length
  else .error (.noSuchTable ("lcmpt_terms"))

/-- Model of Database::insert_item: a plain insert into items (no
on-conflict clause), so the unique constraint on file_path makes it fail
when another row already carries the same path, and the primary key makes
it fail on a duplicate id. -/
def insert_item (db : DbState) (row : ItemRow) : Except DbError DbState :=
  if !db.tables.contains (("items")) then .error (.noSuchTable ("items"))
  else if db.items.any (fun r => r.id = row.id) then
    .error (.uniqueViolation ("items") ("id"))
  else if db.items.any (fun r => r.file_path = row.file_path) then
    .error (.uniqueViolation ("items") ("file_path"))
  else .ok { db with items := db.items ++ [row] }

-- ===========================================================================
-- Scan stage (tessitura-etl scan.rs)
-- ===========================================================================

/-- The data the scan derives for one audio file before inserting: the
fresh random id drawn by Item::new, the path, format, size, and the
parsed tags. -/
structure ScannedFile where
  id : String
  path : String
  format : String
  file_size : Nat
  tag_title : Option String
  tag_artist : Option String
  tag_album : Option String
  duration_secs : Option F64
deriving DecidableEq

/-- The item row the scan builds for a file: tags copied over and the
fingerprint deliberately left empty. -/
def itemRowOfScan (f : ScannedFile) : ItemRow :=
  ⟨f.id, f.path, f.format, f.file_size, none, f.tag_title, f.tag_artist, f.tag_album,
    f.duration_secs⟩

/-- Model of ScanStage::scan_directory over the audio files found by the
walk: each file is inserted through insert_item, whose error aborts the
scan at once; on success the processed count is returned. -/
def scan_directory (db : DbState) : List ScannedFile → Except DbError (DbState × Nat)
  | [] => .ok (db, 0)
  | f :: fs =>
    match insert_item db (itemRowOfScan f) with
    | .error e => .error e
    | .ok db2 =>
      match scan_directory db2 fs with
      | .error e => .error e
      | .ok (db3, n) => .ok (db3, n + 1)

/-- Model of the Stage::execute of the scan stage: complete when the walk
and the inserts went through, a stage error otherwise. -/
def executeScan (db : DbState) (files : List ScannedFile) : Except StageError StageOutcome :=
  match scan_directory db files with
  | .ok _ => .ok .complete
  | .error _ => .error ⟨("Scan failed")⟩

-- ===========================================================================
-- Claims C1 to C3
-- ===========================================================================

/-- C1: on a database freshly opened by Database::open, only migration 1
(initial_schema) is applied, no shipped migration creates the vocabulary
tables, and consequently every vocabulary-term operation of the store
contract fails with a database error (no such table) instead of
succeeding — the migration defining lcgft_terms and lcmpt_terms is
missing from the MIGRATIONS list while the operations and the tests of
db.rs expect it. -/
theorem c1_vocab_ops_fail_on_fresh_store :
    open_database.schema_migrations = [(1, ("initial_schema"))] ∧
    (("lcgft_terms") ∉ open_database.tables ∧ ("lcmpt_terms") ∉ open_database.tables) ∧
    insert_lcgft_term open_database ⟨("uri:gf1"), ("Art music"), none, none⟩ =
      .error (.noSuchTable ("lcgft_terms")) ∧
    get_lcgft_by_label open_database ("Art music") = .error (.noSuchTable ("lcgft_terms")) ∧
    get_lcgft_narrower open_database ("uri:gf1") = .error (.noSuchTable ("lcgft_terms")) ∧
    count_lcgft_terms open_database = .error (.noSuchTable ("lcgft_terms")) ∧
    insert_lcmpt_term open_database ⟨("uri:mp1"), ("violin"), none, none⟩ =
      .error (.noSuchTable ("lcmpt_terms")) ∧
    get_lcmpt_by_label open_database ("violin") = .error (.noSuchTable ("lcmpt_terms")) ∧
    get_lcmpt_narrower open_database ("uri:mp1") = .error (.noSuchTable ("lcmpt_terms")) ∧
    count_lcmpt_terms open_database = .error (.noSuchTable ("lcmpt_terms")) := by
  decide

/-- The file of the first scan of the C2 scenario, with the fresh id its
Item::new draws. -/
def c2FileA : ScannedFile :=
  ⟨("id-0001"), ("/music/a.flac"), ("Flac"), 1000, some ("So What"),
    some ("Miles Davis"), some ("Kind of Blue"), none⟩

/-- The same file as seen by the second scan: same path, new fresh id. -/
def c2FileB : ScannedFile := { c2FileA with id := ("id-0002") }

/-- The store after the first scan of the C2 scenario. -/
def c2DbAfterFirst : DbState := { open_database with items := [itemRowOfScan c2FileA] }

/-- C2: the first scan of a directory holding one audio file succeeds and
records its item row, but a second scan of the same directory fails — the
insert is a plain insert into items, the unique constraint on file_path
fires, scan_directory aborts with the database error, and the stage
returns a stage-execution error instead of upserting the row in place and
completing. The code comment announces insert-or-update and the
specification demands an upsert keyed by file path, so the plain insert
is the slip. -/
theorem c2_second_scan_fails_on_existing_path :
    scan_directory open_database [c2FileA] = .ok (c2DbAfterFirst, 1) ∧
    scan_directory c2DbAfterFirst [c2FileB] =
      .error (.uniqueViolation ("items") ("file_path")) ∧
    executeScan c2DbAfterFirst [c2FileB] = .error ⟨("Scan failed")⟩ := by
  decide

/-- C3 counterexample: the title-cleaning patterns are not applied
case-insensitively. The suffix (2006 REMASTER) — upper case — and the
suffix (deluxe edition) — lower case — both survive strip_title_suffix
unchanged, against the claim that every casing of the eight patterns is
stripped. -/
theorem c3_not_case_insensitive :
    strip_title_suffix ("Dixie Chicken (2006 REMASTER)") =
      ("Dixie Chicken (2006 REMASTER)") ∧
    ¬ strip_title_suffix ("Dixie Chicken (2006 REMASTER)") = ("Dixie Chicken") ∧
    strip_title_suffix ("Track (deluxe edition)") = ("Track (deluxe edition)") := by
  decide

/-- C3 as amended: strip_title_suffix strips the first occurrence of each
of the eight remaster and edition patterns with their source casing — only
the initial letter of remaster may be upper or lower case — preserves the
musically significant suffixes of remix, live and radio edit, and leaves
other casings such as (2006 REMASTER) and (deluxe edition) in place; in
particular Dixie Chicken (2006 Remaster) becomes Dixie Chicken, Snowball
(24-bit Studio Master) becomes Snowball and Alive (Live) is unchanged. -/
theorem c3_strip_title_suffix_amended :
    strip_title_suffix ("Dixie Chicken (2006 Remaster)") = ("Dixie Chicken") ∧
    strip_title_suffix ("Dixie Chicken (2006 remaster)") = ("Dixie Chicken") ∧
    strip_title_suffix ("Year After (Remastered 2006)") = ("Year After") ∧
    strip_title_suffix ("Snowball (24-bit Studio Master)") = ("Snowball") ∧
    strip_title_suffix ("Plain (Studio Master)") = ("Plain") ∧
    strip_title_suffix ("Box (Deluxe Edition)") = ("Box") ∧
    strip_title_suffix ("Box (Expanded Edition)") = ("Box") ∧
    strip_title_suffix ("Box (Anniversary Edition)") = ("Box") ∧
    strip_title_suffix ("Box (Bonus Track Version)") = ("Box") ∧
    strip_title_suffix ("Blue Monday (Remix)") = ("Blue Monday (Remix)") ∧
    strip_title_suffix ("Alive (Live)") = ("Alive (Live)") ∧
    strip_title_suffix ("Song (Radio Edit)") = ("Song (Radio Edit)") ∧
    strip_title_suffix ("Dixie Chicken (2006 REMASTER)") =
      ("Dixie Chicken (2006 REMASTER)") ∧
    strip_title_suffix ("Track (deluxe edition)") = ("Track (deluxe edition)") := by
  decide

-- ===========================================================================
-- Claim C7: period rules
-- ===========================================================================

/-- The composer-match predicate as the claim words it: the rule has a
non-empty match_composer list and some pattern is a case-insensitive
substring of the composer. -/
def composerMatchesB (c : String) (r : PeriodRule) : Bool :=
  !r.match_composer.isEmpty &&
    r.match_composer.any (fun pat => strHasSub (lowerStr c) (lowerStr pat))

/-- The year-match predicate as the claim words it: the year range is
declared and contains the year, both endpoints included. -/
def yearMatchesB (y : Int) (r : PeriodRule) : Bool :=
  match r.year_range with
  | some (ystart, yend) => decide (ystart ≤ y ∧ y ≤ yend)
  | none => false

/-- The period-rule evaluation as the claim describes it: the first
declared rule matched by composer wins at confidence 0.9; failing that the
first declared rule whose inclusive year range contains the year wins at
confidence 0.7; otherwise nothing. -/
def periodRulesClaim (rules : MappingRules) (composer : Option String) (year : Option Int) :
    Option ProposedTag :=
  match composer.bind (fun c => rules.period_rules.find? (composerMatchesB c)) with
  | some r => some (periodTag r ⟨9, 10⟩)
  | none =>
    match year.bind (fun y => rules.period_rules.find? (yearMatchesB y)) with
    | some r => some (periodTag r ⟨7, 10⟩)
    | none => none

/-- findSome? of an if-guarded constructor is find? followed by map. -/
theorem findSome_guard {α β : Type} (p : α → Bool) (f : α → β) :
    ∀ l : List α, l.findSome? (fun r => if p r then some (f r) else none) = (l.find? p).map f := by
  intro l
  induction l with
  | nil => rfl
  | cons x xs ih =>
    by_cases hx : p x
    · simp [List.findSome?, List.find?, hx]
    · simp only [List.findSome?, List.find?, hx, Bool.false_eq_true, if_false, ite_false]
      simpa [hx] using ih

/-- The composer pass is the first composer-matched rule. -/
theorem periodComposerPass_eq (rules : MappingRules) (composer : Option String) :
    periodComposerPass rules composer =
      (composer.bind (fun c => rules.period_rules.find? (composerMatchesB c))).map
        (fun r => periodTag r ⟨9, 10⟩) := by
  cases composer with
  | none => rfl
  | some c =>
    show rules.period_rules.findSome? _ = _
    have hfn : (fun r : PeriodRule =>
        if r.match_composer.isEmpty then none
        else if r.match_composer.any (fun pat => strHasSub (lowerStr c) (lowerStr pat)) then
          some (periodTag r ⟨9, 10⟩)
        else none) =
        (fun r : PeriodRule =>
          if composerMatchesB c r then some (periodTag r ⟨9, 10⟩) else none) := by
      funext r
      by_cases he : r.match_composer.isEmpty <;>
        by_cases hm : r.match_composer.any (fun pat => strHasSub (lowerStr c) (lowerStr pat)) <;>
        simp [composerMatchesB, he, hm]
    rw [hfn, findSome_guard]
    rfl

/-- The year pass is the first year-matched rule. -/
theorem periodYearPass_eq (rules : MappingRules) (year : Option Int) :
    periodYearPass rules year =
      (year.bind (fun y => rules.period_rules.find? (yearMatchesB y))).map
        (fun r => periodTag r ⟨7, 10⟩) := by
  cases year with
  | none => rfl
  | some y =>
    show rules.period_rules.findSome? _ = _
    have hfn : (fun r : PeriodRule =>
        match r.year_range with
        | some (ystart, yend) =>
          if ystart ≤ y ∧ y ≤ yend then some (periodTag r ⟨7, 10⟩) else none
        | none => none) =
        (fun r : PeriodRule =>
          if yearMatchesB y r then some (periodTag r ⟨7, 10⟩) else none) := by
      funext r
      cases hyr : r.year_range with
      | none => simp [yearMatchesB, hyr]
      | some se =>
        cases se with
        | mk ystart yend =>
          by_cases hin : ystart ≤ y ∧ y ≤ yend <;> simp [yearMatchesB, hyr, hin]
    rw [hfn, findSome_guard]
    rfl

/-- C7: apply_period_rules behaves exactly as claimed — with a composer
supplied, the first declared rule having a non-empty match_composer list
with some pattern a case-insensitive substring of the composer wins at
confidence 0.9; failing that, with a year supplied, the first declared
rule whose year range contains the year, both endpoints inclusive, wins
at confidence 0.7 (so a boundary year in two ranges goes to the
earlier-declared rule); a composer match always preempts the year pass;
with neither match the result is none. -/
theorem c7_apply_period_rules_as_claimed (rules : MappingRules) (composer : Option String)
    (year : Option Int) :
    apply_period_rules rules composer year = periodRulesClaim rules composer year := by
  unfold apply_period_rules periodRulesClaim
  rw [periodComposerPass_eq, periodYearPass_eq]
  cases composer.bind (fun c => rules.period_rules.find? (composerMatchesB c)) with
  | some r => rfl
  | none =>
    cases year.bind (fun y => rules.period_rules.find? (yearMatchesB y)) with
    | some r => rfl
    | none => rfl

-- ===========================================================================
-- Claim C8: Last.fm tags to assertions
-- ===========================================================================

/-- Folding a maximum from an accumulator equals the maximum of the
accumulator and the folded maximum. -/
theorem foldl_max_from (l : List Nat) : ∀ a : Nat, l.foldl max a = max a (l.foldr max 0) := by
  induction l with
  | nil => intro a; simp
  | cons b l ih =>
    intro a
    simp only [List.foldl, List.foldr]
    rw [ih (max a b), Nat.max_assoc]

/-- Mapping over a filtered list is folding with a guarded cons. -/
theorem filter_map_eq_foldr {α β : Type} (p : α → Bool) (f : α → β) (l : List α) :
    (l.filter p).map f = l.foldr (fun t acc => if p t then f t :: acc else acc) [] := by
  induction l with
  | nil => rfl
  | cons x xs ih =>
    by_cases hx : p x <;> simp [List.filter_cons, hx, ih]

/-- The source maximum (max().unwrap_or(1)) agrees with the claim-side
maximum over all tags of the fetch. -/
theorem maxTagCount_eq (tags : List LastFmTag) : maxTagCount tags = lastFmConfDen tags := by
  cases tags with
  | nil => rfl
  | cons t ts =>
    simp only [maxTagCount, lastFmConfDen, List.isEmpty_cons, List.map_cons, List.foldr,
      Bool.false_eq_true, if_false]
    rw [foldl_max_from]

/-- C8: tags_to_assertions at the shipped threshold emits nothing for a
tag whose count is below 10 and exactly one assertion for each tag whose
count is at least 10, with field tag, source Last.fm, the scope recorded
in the value beside the name and count, and confidence the count divided
by the maximum count over all tags of the fetch, the dropped ones
included. -/
theorem c8_tags_to_assertions_as_claimed (tags : List LastFmTag) (entity_id scope : String) :
    tags_to_assertions MIN_TAG_COUNT tags entity_id scope =
      tagsToAssertionsClaim tags entity_id scope := by
  unfold tags_to_assertions tagsToAssertionsClaim
  rw [maxTagCount_eq, filter_map_eq_foldr]
  refine congrArg (fun g => List.foldr g ([] : List Assertion) tags) ?_
  funext t acc
  by_cases hc : t.count < 10
  · have hn : ¬ (MIN_TAG_COUNT ≤ t.count) := by simp only [MIN_TAG_COUNT]; omega
    rw [if_neg (by simpa using hn), if_pos hc]
  · have hy : MIN_TAG_COUNT ≤ t.count := by simp only [MIN_TAG_COUNT]; omega
    rw [if_pos (decide_eq_true hy), if_neg hc]
    rfl

-- ===========================================================================
-- Claim C6: harmonize outcome
-- ===========================================================================

/-- A filterMap whose function never produces a value yields nothing. -/
theorem filterMap_const_none {α β : Type} (l : List α) :
    l.filterMap (fun _ => (none : Option β)) = [] := by
  induction l with
  | nil => rfl
  | cons x xs ih => simp [List.filterMap_cons, ih]

/-- With no assertions at all the combined proposal list is empty. -/
theorem harmonizeProposals_nil (rules : MappingRules) (gOrd iOrd : List (String × String)) :
    harmonizeProposals rules [] gOrd iOrd = [] := by
  unfold harmonizeProposals apply_genre_rules apply_instrument_rules
  have hg : rawGenreProposals rules [] = [] := rfl
  have hi : rawInstrumentProposals rules [] = [] := rfl
  rw [hg, hi]
  unfold deduplicate_proposals
  have hG : ∀ k, mkWinner rules.source_priority (groupFor [] k) = none := fun _ => rfl
  simp only [hG, filterMap_const_none]
  rfl

/-- C6: the harmonize outcome is decided by the combined proposal list
alone — needs-review exactly when the list is non-empty, whether or not
any proposal carries alternatives, and complete exactly when it is empty,
including the case of an item with no assertions at all, where the stage
returns complete early and the list is indeed empty. -/
theorem c6_harmonize_outcome_iff (rules : MappingRules) (assertions : List Assertion)
    (gOrd iOrd : List (String × String)) :
    (harmonizeOutcome rules assertions gOrd iOrd = .needsReview ↔
      harmonizeProposals rules assertions gOrd iOrd ≠ []) ∧
    (harmonizeOutcome rules assertions gOrd iOrd = .complete ↔
      harmonizeProposals rules assertions gOrd iOrd = []) := by
  unfold harmonizeOutcome
  by_cases hA : assertions.isEmpty
  · have hnil : assertions = [] := by simpa using hA
    subst hnil
    simp [harmonizeProposals_nil]
  · simp only [hA, Bool.false_eq_true, if_false]
    by_cases hAny :
        (harmonizeProposals rules assertions gOrd iOrd).any (fun p => !p.alternatives.isEmpty)
    · have hne : harmonizeProposals rules assertions gOrd iOrd ≠ [] := by
        rcases List.any_eq_true.mp hAny with ⟨p, hp, _⟩
        exact List.ne_nil_of_mem hp
      simp [hAny, hne]
    · by_cases hE : (harmonizeProposals rules assertions gOrd iOrd).isEmpty
      · have hnilp : harmonizeProposals rules assertions gOrd iOrd = [] := by simpa using hE
        simp [hAny, hE, hnilp]
      · have hne : harmonizeProposals rules assertions gOrd iOrd ≠ [] := by
          simpa using hE
        simp [hAny, hE, hne]

-- ===========================================================================
-- Claim C9: provider failures inside enrichment subtasks
-- ===========================================================================

/-- C9: for each of the four enrichment subtasks, when its enricher is
configured and the read phase yielded the lookup datum, a failing provider
call is caught inside the subtask: the subtask returns complete, never a
failed outcome, for every provider error; and the assertions any sibling
subtask stored remain in the store no matter which other subtasks
failed. -/
theorem c9_provider_error_not_fatal (α : Type) (readPhase : Except StageError (Option α))
    (v : α) (e : EnrichError) (hread : readPhase = .ok (some v)) :
    (∀ avail : Bool, avail = true →
      enrichSubtaskBody avail readPhase (.error e) = .ok .complete) ∧
    (∀ name ∈ [("musicbrainz"), ("wikidata"), ("lastfm"), ("discogs")],
      executeEnrich true true true true (some name) readPhase (.error e) =
        .ok StageOutcome.complete) ∧
    (∀ (providers : List (Except EnrichError (List Assertion))) (i : Nat)
        (l : List Assertion), providers.get? i = some (.ok l) →
      ∀ a ∈ l, a ∈ fanOutStored providers) := by
  subst hread
  refine ⟨?_, ?_, ?_⟩
  · intro avail ha
    subst ha
    rfl
  · intro name hname
    simp only [List.mem_cons] at hname
    rcases hname with h | h | h | h | h
    · subst h; rfl
    · subst h; rfl
    · subst h; rfl
    · subst h; rfl
    · exact absurd h (List.not_mem_nil _)
  · intro providers i l hget a ha
    have hmem : (Except.ok l : Except EnrichError (List Assertion)) ∈ providers :=
      List.get?_mem hget
    have : a ∈ subtaskStored (.ok l) := ha
    exact List.mem_flatten.mpr ⟨subtaskStored (.ok l), List.mem_map_of_mem subtaskStored hmem, this⟩

/-- Witness for C9 at a concrete subtask: the Last.fm subtask with an
item carrying tags, whose provider call returns an HTTP 500, still
completes. -/
theorem c9_witness :
    ((Except.ok (some 0) : Except StageError (Option Nat)) = .ok (some 0)) ∧
    executeEnrich true true true true (some ("lastfm"))
        (Except.ok (some 0) : Except StageError (Option Nat))
        (.error (EnrichError.http ("Last.fm") ("internal server error"))) =
      .ok StageOutcome.complete :=
  ⟨rfl,
    (c9_provider_error_not_fatal Nat (.ok (some 0)) 0
      (EnrichError.http ("Last.fm") ("internal server error")) rfl).2.1
      ("lastfm") (by decide)⟩

-- ===========================================================================
-- Claim C10: MusicBrainz composer assertions versus the harmonize hint
-- ===========================================================================

/-- The shape the claim ascribes to a composer assertion value: a JSON
object of name and musicbrainz_id. -/
def ComposerObjShape (v : Json) : Prop :=
  ∃ n m, v = Json.obj [(("name"), Json.str n), (("musicbrainz_id"), Json.str m)]



/-- Every composer assertion a fetched work contributes carries the
object value of name and mbid. -/
theorem enrich_work_assertions_composer (eid : String) (work : MBWork) :
    ∀ a ∈ enrich_work_assertions eid work, a.field = ("composer") → ComposerObjShape a.value := by
  intro a ha hfield
  unfold enrich_work_assertions at ha
  rcases List.mem_append.mp ha with hL | hrel
  · rcases List.mem_append.mp hL with hhead | hkey
    · rcases List.mem_cons.mp hhead with rfl | hhead
      · simp at hfield
      rcases List.mem_cons.mp hhead with rfl | hhead
      · simp at hfield
      · exact absurd hhead (List.not_mem_nil _)
    · rcases List.mem_map.mp hkey with ⟨attr, _, h⟩
      rw [← h] at hfield
      simp at hfield
  · rcases List.mem_filterMap.mp hrel with ⟨rel, _, h⟩
    split at h
    · rcases hart : rel.artist with _ | artist
      · rw [hart] at h; exact absurd h (by simp)
      · rw [hart] at h
        simp only [Option.map] at h
        injection h with h
        exact ⟨artist.name, artist.id, by rw [← h]⟩
    · exact absurd h (by simp)

/-- Every composer assertion the work-relation loop contributes carries
the object value, whatever the relations and the work oracle. -/
theorem workRelationAssertions_composer (gw : String → Except EnrichError MBWork)
    (eid : String) :
    ∀ (rels : List MBRecRelation) (out : List Assertion),
      workRelationAssertions gw eid rels = .ok out →
      ∀ a ∈ out, a.field = ("composer") → ComposerObjShape a.value := by
  intro rels
  induction rels with
  | nil =>
    intro out h a ha _
    injection h with h
    rw [← h] at ha
    exact absurd ha (List.not_mem_nil _)
  | cons rel rest ih =>
    intro out h a ha hfield
    unfold workRelationAssertions at h
    split at h
    · split at h
      · rename_i w hwk
        split at h
        · exact Except.noConfusion h
        · rename_i here henr
          split at h
          · exact Except.noConfusion h
          · rename_i there hrest
            injection h with h
            rw [← h] at ha
            rcases List.mem_append.mp ha with hh | hh
            · unfold enrich_work at henr
              split at henr
              · exact Except.noConfusion henr
              · rename_i work hgw
                injection henr with henr
                rw [← henr] at hh
                exact enrich_work_assertions_composer eid work a hh hfield
            · exact ih there hrest a hh hfield
      · exact ih out h a ha hfield
    · exact ih out h a ha hfield

/-- No assertion a fetched release contributes bears the composer field. -/
theorem enrich_release_assertions_no_composer (eid : String) (release : MBRelease) :
    ∀ a ∈ enrich_release_assertions eid release, a.field ≠ ("composer") := by
  intro a ha
  unfold enrich_release_assertions at ha
  rcases List.mem_append.mp ha with hyear | hlab
  · split at hyear
    · split at hyear
      · rcases List.mem_cons.mp hyear with rfl | hyear
        · simp
        · exact absurd hyear (List.not_mem_nil _)
      · exact absurd hyear (List.not_mem_nil _)
    · exact absurd hyear (List.not_mem_nil _)
  · rcases List.mem_flatMap.mp hlab with ⟨info, _, hmem⟩
    rcases List.mem_append.mp hmem with hl | hc
    · split at hl
      · rcases List.mem_cons.mp hl with rfl | hl
        · simp
        · exact absurd hl (List.not_mem_nil _)
      · exact absurd hl (List.not_mem_nil _)
    · split at hc
      · rcases List.mem_cons.mp hc with rfl | hc
        · simp
        · exact absurd hc (List.not_mem_nil _)
      · exact absurd hc (List.not_mem_nil _)

/-- C10: for any recording response and oracles, when the MusicBrainz
enrichment succeeds, every assertion it produced whose field is composer
carries the JSON object of name and musicbrainz_id — never a plain
string — so the harmonize composer hint computed from those assertions is
none, and apply_period_rules on that hint degenerates to the year pass
alone: the composer pass never fires on MusicBrainz-only assertions. -/
theorem c10_composer_hint_none_on_musicbrainz (gw : String → Except EnrichError MBWork)
    (gr : String → Except EnrichError MBRelease) (rec : MBRecording) (eid : String)
    (out : List Assertion) (h : enrich_recording gw gr rec eid = .ok out) :
    (∀ a ∈ out, a.field = ("composer") → ComposerObjShape a.value) ∧
    composerHint out = none ∧
    (∀ (rules : MappingRules) (y : Option Int),
      apply_period_rules rules (composerHint out) y = periodYearPass rules y) := by
  have hmain : ∀ a ∈ out, a.field = ("composer") → ComposerObjShape a.value := by
    intro a ha hfield
    unfold enrich_recording at h
    split at h
    · exact Except.noConfusion h
    · rename_i workAs hw
      split at h
      · exact Except.noConfusion h
      · rename_i relAs hrel
        injection h with h
        rw [← h] at ha
        rcases List.mem_append.mp ha with hbw | hrl
        · rcases List.mem_append.mp hbw with hbase | hwk
          · rcases List.mem_cons.mp hbase with rfl | hart
            · simp at hfield
            · rcases List.mem_map.mp hart with ⟨credit, _, hcred⟩
              rw [← hcred] at hfield
              simp at hfield
          · exact workRelationAssertions_composer gw eid rec.relations workAs hw a hwk hfield
        · split at hrel
          · split at hrel
            · exact Except.noConfusion hrel
            · rename_i rel hgr
              injection hrel with hrel
              rw [← hrel] at hrl
              exact absurd hfield (enrich_release_assertions_no_composer eid rel a hrl)
          · injection hrel with hrel
            rw [← hrel] at hrl
            exact absurd hrl (List.not_mem_nil _)
  refine ⟨hmain, ?_⟩
  have hhint : composerHint out = none := by
    unfold composerHint
    rcases hfind : out.find? (fun a => a.field == ("composer")) with _ | a
    · rw [hfind]; rfl
    · have hfa : a.field = ("composer") := by
        have := List.find?_some hfind
        simpa using this
      have hmem : a ∈ out := List.mem_of_find?_eq_some hfind
      rcases hmain a hmem hfa with ⟨n, m, hv⟩
      rw [hfind]
      show jsonAsStr a.value = none
      rw [hv]
      rfl
  refine ⟨hhint, ?_⟩
  intro rules y
  rw [hhint]
  rfl

/-- The work the C10 witness oracle serves: a composer relation and no
attributes. -/
def c10Work : MBWork :=
  ⟨("w1"), ("Grosse Fuge"), [],
    [⟨("composer"), some ⟨("Ludwig van Beethoven"), ("artist-77")⟩⟩]⟩

/-- Work oracle of the C10 witness. -/
def c10GetWork : String → Except EnrichError MBWork := fun _ => .ok c10Work

/-- Release oracle of the C10 witness (never reached: no releases). -/
def c10GetRelease : String → Except EnrichError MBRelease := fun _ => .ok ⟨("r1"), none, []⟩

/-- Recording of the C10 witness: one performance relation to the work. -/
def c10Rec : MBRecording :=
  ⟨("Grosse Fuge, op. 133"), none, [⟨("performance"), some ⟨("w1"), ("Grosse Fuge")⟩⟩], none⟩

/-- The assertions the C10 witness enrichment produces. -/
def c10Out : List Assertion :=
  [⟨("item-1"), ("title"), Json.str ("Grosse Fuge, op. 133"), Source.musicBrainz, none⟩,
   ⟨("item-1"), ("work_title"), Json.str ("Grosse Fuge"), Source.musicBrainz, none⟩,
   ⟨("item-1"), ("work_musicbrainz_id"), Json.str ("w1"), Source.musicBrainz, none⟩,
   ⟨("item-1"), ("composer"),
     Json.obj [(("name"), Json.str ("Ludwig van Beethoven")),
       (("musicbrainz_id"), Json.str ("artist-77"))],
     Source.musicBrainz, some ⟨95, 100⟩⟩]

/-- Witness for C10: the concrete enrichment run produces exactly the
expected assertions — a composer among them — and the composer hint over
them is none. -/
theorem c10_witness :
    enrich_recording c10GetWork c10GetRelease c10Rec ("item-1") = .ok c10Out ∧
    composerHint c10Out = none :=
  ⟨rfl,
    (c10_composer_hint_none_on_musicbrainz c10GetWork c10GetRelease c10Rec ("item-1")
      c10Out rfl).2.1⟩

-- ===========================================================================
-- Deduplication order theory (claims C4 and C5)
-- ===========================================================================

/-- Reformulation of the confidence comparison as a proposition. -/
theorem f64Le_iff (a b : F64) :
    f64Le a b = true ↔ a.num * (b.den : Int) ≤ b.num * (a.den : Int) := by
  simp [f64Le]

/-- The confidence comparison is reflexive. -/
theorem f64Le_refl (a : F64) : f64Le a a = true := by
  simp [f64Le]

/-- The confidence comparison is total. -/
theorem f64Le_total (a b : F64) : f64Le a b = true ∨ f64Le b a = true := by
  simp only [f64Le_iff]
  exact Int.le_total _ _

/-- The confidence comparison is transitive through a middle value whose
denominator is positive — the case for every f64 the code builds. -/
theorem f64Le_trans (a b c : F64) (hb : b.Pos) (h1 : f64Le a b = true)
    (h2 : f64Le b c = true) : f64Le a c = true := by
  rw [f64Le_iff] at h1 h2 ⊢
  have hb' : (0 : Int) < (b.den : Int) := by exact_mod_cast hb
  nlinarith [mul_le_mul_of_nonneg_right h1 (Int.ofNat_nonneg c.den),
    mul_le_mul_of_nonneg_right h2 (Int.ofNat_nonneg a.den)]

/-- The sort relation is reflexive. -/
theorem tagGE_refl (sp : List (String × Nat)) (p : ProposedTag) : tagGE sp p p :=
  Or.inr ⟨rfl, f64Le_refl _⟩

/-- The sort relation is total. -/
theorem tagGE_total (sp : List (String × Nat)) (a b : ProposedTag) :
    tagGE sp a b ∨ tagGE sp b a := by
  rcases Nat.lt_trichotomy (get_priority sp a.source) (get_priority sp b.source) with h | h | h
  · exact Or.inr (Or.inl h)
  · rcases f64Le_total a.confidence b.confidence with hc | hc
    · exact Or.inr (Or.inr ⟨h.symm, hc⟩)
    · exact Or.inl (Or.inr ⟨h, hc⟩)
  · exact Or.inl (Or.inl h)

/-- The sort relation is transitive when the middle confidence has a
positive denominator. -/
theorem tagGE_trans (sp : List (String × Nat)) (a b c : ProposedTag)
    (hb : (b.confidence).Pos) (hab : tagGE sp a b) (hbc : tagGE sp b c) : tagGE sp a c := by
  rcases hab with h1 | ⟨h1e, h1c⟩ <;> rcases hbc with h2 | ⟨h2e, h2c⟩
  · exact Or.inl (lt_trans h2 h1)
  · exact Or.inl (by omega)
  · exact Or.inl (by omega)
  · exact Or.inr ⟨by omega, f64Le_trans c.confidence b.confidence a.confidence hb h2c h1c⟩

/-- The head of the sorted group dominates every member of the group with
respect to the sort relation, provided every member has a well-formed
confidence. -/
theorem sortGroup_head_ge (sp : List (String × Nat)) :
    ∀ l : List ProposedTag, (∀ p ∈ l, (p.confidence).Pos) →
      ∀ w rest, sortGroup sp l = w :: rest → ∀ q ∈ l, tagGE sp w q := by
  intro l
  induction l with
  | nil =>
    intro _ w rest h q hq
    exact absurd hq (List.not_mem_nil _)
  | cons x xs ih =>
    intro hwf w rest hsort q hq
    have hstep : sortGroup sp (x :: xs) = List.orderedInsert (tagGE sp) x (sortGroup sp xs) :=
      rfl
    rw [hstep] at hsort
    cases hxs : sortGroup sp xs with
    | nil =>
      rw [hxs] at hsort
      simp only [List.orderedInsert] at hsort
      injection hsort with h1 h2
      subst h1
      have hxsnil : xs = [] := by
        have hperm : ([] : List ProposedTag).Perm xs := hxs ▸ List.perm_insertionSort (tagGE sp) xs
        exact hperm.symm.eq_nil
      subst hxsnil
      rcases List.mem_cons.mp hq with rfl | hq'
      · exact tagGE_refl sp q
      · exact absurd hq' (List.not_mem_nil _)
    | cons y ys =>
      rw [hxs] at hsort
      have hydom : ∀ q ∈ xs, tagGE sp y q :=
        ih (fun p hp => hwf p (List.mem_cons_of_mem _ hp)) y ys hxs
      have hymem : y ∈ xs := by
        have hperm : (y :: ys).Perm xs := hxs ▸ List.perm_insertionSort (tagGE sp) xs
        exact hperm.subset (List.mem_cons_self _ _)
      by_cases hxy : tagGE sp x y
      · simp only [List.orderedInsert, if_pos hxy] at hsort
        injection hsort with h1 h2
        subst h1
        rcases List.mem_cons.mp hq with rfl | hq'
        · exact tagGE_refl sp q
        · exact tagGE_trans sp x y q (hwf y (List.mem_cons_of_mem _ hymem)) hxy (hydom q hq')
      · simp only [List.orderedInsert, if_neg hxy] at hsort
        injection hsort with h1 h2
        subst h1
        rcases List.mem_cons.mp hq with rfl | hq'
        · rcases tagGE_total sp q y with h | h
          · exact absurd h hxy
          · exact h
        · exact hydom q hq'

/-- Membership in a group: in the original list with the right key. -/
theorem groupFor_mem (props : List ProposedTag) (k : String × String) (q : ProposedTag) :
    q ∈ groupFor props k ↔ q ∈ props ∧ tagKey q = k := by
  simp [groupFor]

/-- Destructuring of a produced winner: the head of the sorted group,
with the losers appended to its alternatives. -/
theorem mkWinner_spec (sp : List (String × Nat)) (G : List ProposedTag) (p : ProposedTag)
    (h : mkWinner sp G = some p) :
    ∃ w rest, sortGroup sp G = w :: rest ∧ w ∈ G ∧ p.field = w.field ∧ p.value = w.value ∧
      p.source = w.source ∧ p.confidence = w.confidence ∧
      p.alternatives = w.alternatives ++ rest.map toAlternative := by
  unfold mkWinner at h
  split at h
  · exact Option.noConfusion h
  · rename_i w rest hs
    injection h with h
    have hwmem : w ∈ G := by
      have hmem : w ∈ sortGroup sp G := by
        rw [hs]; exact List.mem_cons_self _ _
      exact (List.perm_insertionSort (tagGE sp) G).subset hmem
    exact ⟨w, rest, hs, hwmem, by rw [← h], by rw [← h], by rw [← h], by rw [← h], by rw [← h]⟩

/-- A non-empty group produces a winner. -/
theorem mkWinner_some_of_ne (sp : List (String × Nat)) (G : List ProposedTag) (h : G ≠ []) :
    ∃ p, mkWinner sp G = some p := by
  unfold mkWinner
  cases hs : sortGroup sp G with
  | nil =>
    have : G = [] := by
      have hperm : ([] : List ProposedTag).Perm G := hs ▸ List.perm_insertionSort (tagGE sp) G
      exact hperm.symm.eq_nil
    exact absurd this h
  | cons w rest => exact ⟨_, rfl⟩

/-- The winner of the group of a key carries that key. -/
theorem mkWinner_key (sp : List (String × Nat)) (raw : List ProposedTag) (k : String × String)
    (p : ProposedTag) (h : mkWinner sp (groupFor raw k) = some p) : tagKey p = k := by
  rcases mkWinner_spec sp _ p h with ⟨w, rest, _, hwG, hf, hv, _⟩
  have hk : tagKey w = k := ((groupFor_mem raw k w).mp hwG).2
  unfold tagKey at hk ⊢
  rw [hf, hv]
  exact hk

/-- The keys of the deduplicated output are exactly the visited keys. -/
theorem dedup_map_tagKey (sp : List (String × Nat)) (raw : List ProposedTag) :
    ∀ ord, (∀ k ∈ ord, k ∈ raw.map tagKey) →
      (deduplicate_proposals sp raw ord).map tagKey = ord := by
  intro ord
  induction ord with
  | nil => intro _; rfl
  | cons k ks ih =>
    intro h
    have hk : k ∈ raw.map tagKey := h k (List.mem_cons_self _ _)
    rcases List.mem_map.mp hk with ⟨q, hq, hqk⟩
    have hgne : groupFor raw k ≠ [] := by
      intro hnil
      have hmem : q ∈ groupFor raw k := (groupFor_mem raw k q).mpr ⟨hq, hqk⟩
      rw [hnil] at hmem
      exact absurd hmem (List.not_mem_nil _)
    rcases mkWinner_some_of_ne sp _ hgne with ⟨p, hp⟩
    have hkey : tagKey p = k := mkWinner_key sp raw k p hp
    unfold deduplicate_proposals
    rw [List.filterMap_cons, hp]
    simp only [List.map_cons, hkey]
    have := ih (fun x hx => h x (List.mem_cons_of_mem _ hx))
    unfold deduplicate_proposals at this
    rw [this]

/-- Every raw genre proposal has empty alternatives and a confidence that
is a rule confidence times an assertion confidence. -/
theorem rawGenre_shape (rules : MappingRules) (assertions : List Assertion) :
    ∀ p ∈ rawGenreProposals rules assertions, p.alternatives = [] ∧
      ∃ r ∈ rules.genre_rules, ∃ a ∈ assertions,
        p.confidence = f64Mul r.confidence (assertionConfidence a) := by
  intro p hp
  unfold rawGenreProposals at hp
  rcases List.mem_flatMap.mp hp with ⟨a, ha, hpa⟩
  have haMem : a ∈ assertions := (List.mem_filter.mp ha).1
  rcases List.mem_flatMap.mp hpa with ⟨r, hr, hpr⟩
  split at hpr
  · unfold genreRuleOutputs at hpr
    rcases List.mem_append.mp hpr with hgf | hl
    · rcases List.mem_append.mp hgf with hg | hf
      · split at hg
        · rcases List.mem_cons.mp hg with rfl | hg
          · exact ⟨rfl, r, hr, a, haMem, rfl⟩
          · exact absurd hg (List.not_mem_nil _)
        · exact absurd hg (List.not_mem_nil _)
      · split at hf
        · rcases List.mem_cons.mp hf with rfl | hf
          · exact ⟨rfl, r, hr, a, haMem, rfl⟩
          · exact absurd hf (List.not_mem_nil _)
        · exact absurd hf (List.not_mem_nil _)
    · split at hl
      · rcases List.mem_cons.mp hl with rfl | hl
        · exact ⟨rfl, r, hr, a, haMem, rfl⟩
        · exact absurd hl (List.not_mem_nil _)
      · exact absurd hl (List.not_mem_nil _)
  · exact absurd hpr (List.not_mem_nil _)

/-- Every raw instrument proposal has empty alternatives and a confidence
that is the fixed 0.8 base times an assertion confidence. -/
theorem rawInstrument_shape (rules : MappingRules) (assertions : List Assertion) :
    ∀ p ∈ rawInstrumentProposals rules assertions, p.alternatives = [] ∧
      ∃ a ∈ assertions, p.confidence = f64Mul ⟨8, 10⟩ (assertionConfidence a) := by
  intro p hp
  unfold rawInstrumentProposals at hp
  rcases List.mem_flatMap.mp hp with ⟨a, ha, hpa⟩
  have haMem : a ∈ assertions := (List.mem_filter.mp ha).1
  rcases List.mem_flatMap.mp hpa with ⟨r, hr, hpr⟩
  split at hpr
  · rcases List.mem_map.mp hpr with ⟨instrument, _, h⟩
    rw [← h]
    exact ⟨rfl, a, haMem, rfl⟩
  · exact absurd hpr (List.not_mem_nil _)

/-- A product of fractions with positive denominators has one too. -/
theorem f64Mul_pos {a b : F64} (ha : a.Pos) (hb : b.Pos) : (f64Mul a b).Pos :=
  Nat.mul_pos ha hb

/-- Raw genre proposals have well-formed confidences when the rules and
assertions do. -/
theorem rawGenre_wf (rules : MappingRules) (assertions : List Assertion)
    (hr : ∀ r ∈ rules.genre_rules, (r.confidence).Pos)
    (ha : ∀ a ∈ assertions, (assertionConfidence a).Pos) :
    ∀ p ∈ rawGenreProposals rules assertions, (p.confidence).Pos := by
  intro p hp
  rcases rawGenre_shape rules assertions p hp with ⟨_, r, hrr, a, haa, hconf⟩
  rw [hconf]
  exact f64Mul_pos (hr r hrr) (ha a haa)

/-- Raw instrument proposals have well-formed confidences when the
assertions do. -/
theorem rawInstrument_wf (rules : MappingRules) (assertions : List Assertion)
    (ha : ∀ a ∈ assertions, (assertionConfidence a).Pos) :
    ∀ p ∈ rawInstrumentProposals rules assertions, (p.confidence).Pos := by
  intro p hp
  rcases rawInstrument_shape rules assertions p hp with ⟨_, a, haa, hconf⟩
  rw [hconf]
  exact f64Mul_pos (by decide) (ha a haa)

/-- The conflict-resolution contract of deduplicate_proposals as the claim
states it: one output proposal per distinct (field, value) key of the raw
proposals; each output proposal dominates its group — no group member has
a higher source priority, and among equal priorities none has a higher
confidence — and the output proposal together with its alternatives
enumerates, by value, source and confidence, exactly the members of its
group, so every non-winner is preserved as an alternative. -/
def DedupWinnerSpec (sp : List (String × Nat)) (raw out : List ProposedTag) : Prop :=
  ((out.map tagKey).Nodup ∧ (∀ k ∈ out.map tagKey, k ∈ raw.map tagKey) ∧
    (∀ k ∈ raw.map tagKey, k ∈ out.map tagKey)) ∧
  ∀ p ∈ out,
    (∀ q ∈ groupFor raw (tagKey p),
      get_priority sp q.source ≤ get_priority sp p.source) ∧
    (∀ q ∈ groupFor raw (tagKey p),
      get_priority sp q.source = get_priority sp p.source →
        f64Le q.confidence p.confidence = true) ∧
    ((⟨p.value, p.source, p.confidence⟩ : AltProposal) :: p.alternatives).Perm
      ((groupFor raw (tagKey p)).map toAlternative)

/-- The master lemma behind C4: for every admissible HashMap order over
well-formed raw proposals with empty alternatives, the deduplication
output satisfies the conflict-resolution contract. -/
theorem dedup_winner_spec (sp : List (String × Nat)) (raw : List ProposedTag)
    (ord : List (String × String)) (hord : ValidOrder raw ord)
    (hwf : ∀ p ∈ raw, (p.confidence).Pos) (halt : ∀ p ∈ raw, p.alternatives = []) :
    DedupWinnerSpec sp raw (deduplicate_proposals sp raw ord) := by
  have hmap : (deduplicate_proposals sp raw ord).map tagKey = ord :=
    dedup_map_tagKey sp raw ord hord.2.1
  constructor
  · rw [hmap]
    exact ⟨hord.1, hord.2.1, hord.2.2⟩
  · intro p hp
    rcases List.mem_filterMap.mp hp with ⟨k, _, hw⟩
    have hkey : tagKey p = k := mkWinner_key sp raw k p hw
    rw [hkey]
    have hGsub : ∀ q ∈ groupFor raw k, q ∈ raw := fun q hq => ((groupFor_mem raw k q).mp hq).1
    have hGwf : ∀ q ∈ groupFor raw k, (q.confidence).Pos := fun q hq => hwf q (hGsub q hq)
    rcases mkWinner_spec sp _ p hw with ⟨w, rest, hs, hwG, hf, hv, hsrc, hconf, haltp⟩
    have hdom : ∀ q ∈ groupFor raw k, tagGE sp w q :=
      sortGroup_head_ge sp (groupFor raw k) hGwf w rest hs
    refine ⟨?_, ?_, ?_⟩
    · intro q hq
      rw [hsrc]
      rcases hdom q hq with h | ⟨he, _⟩
      · exact Nat.le_of_lt h
      · exact Nat.le_of_eq he.symm
    · intro q hq hpri
      rw [hsrc] at hpri
      rcases hdom q hq with h | ⟨_, hc⟩
      · omega
      · rw [hconf]
        exact hc
    · have hperm : (w :: rest).Perm (groupFor raw k) := by
        have := List.perm_insertionSort (tagGE sp) (groupFor raw k)
        rw [show List.insertionSort (tagGE sp) (groupFor raw k) = sortGroup sp (groupFor raw k)
          from rfl, hs] at this
        exact this
      have hmapped : ((w :: rest).map toAlternative).Perm
          ((groupFor raw k).map toAlternative) := hperm.map toAlternative
      have hhead : (⟨p.value, p.source, p.confidence⟩ : AltProposal) = toAlternative w := by
        unfold toAlternative
        rw [hv, hsrc, hconf]
      have halts : p.alternatives = rest.map toAlternative := by
        rw [haltp, halt w (hGsub w hwG)]
        rfl
      rw [hhead, halts]
      exact hmapped

/-- C4: for every rules document and assertion list whose confidences are
genuine (positive-denominator) float values, and every admissible HashMap
group order, the outputs of apply_genre_rules and apply_instrument_rules
satisfy the conflict-resolution contract: one proposal per (field, value)
group of the raw proposals; the winner has the highest looked-up source
priority in its group, a source absent from source_priority counting 0;
priority ties resolve to the highest confidence; and the winner plus its
alternatives list carries exactly the values, sources and confidences of
the whole group, so every non-winner is preserved. -/
theorem c4_conflict_resolution (rules : MappingRules) (assertions : List Assertion)
    (gOrd iOrd : List (String × String))
    (hwfr : ∀ r ∈ rules.genre_rules, (r.confidence).Pos)
    (hwfa : ∀ a ∈ assertions, (assertionConfidence a).Pos)
    (hg : ValidOrder (rawGenreProposals rules assertions) gOrd)
    (hi : ValidOrder (rawInstrumentProposals rules assertions) iOrd) :
    DedupWinnerSpec rules.source_priority (rawGenreProposals rules assertions)
      (apply_genre_rules rules assertions gOrd) ∧
    DedupWinnerSpec rules.source_priority (rawInstrumentProposals rules assertions)
      (apply_instrument_rules rules assertions iOrd) := by
  constructor
  · exact dedup_winner_spec rules.source_priority _ gOrd hg
      (rawGenre_wf rules assertions hwfr hwfa)
      (fun p hp => (rawGenre_shape rules assertions p hp).1)
  · exact dedup_winner_spec rules.source_priority _ iOrd hi
      (rawInstrument_wf rules assertions hwfa)
      (fun p hp => (rawInstrument_shape rules assertions p hp).1)

/-- The rules document of the C4 witness: one genre rule over classical,
with MusicBrainz at priority 5 and Last.fm at priority 2. -/
def c4Rules : MappingRules :=
  ⟨[(("musicbrainz"), 5), (("lastfm"), 2)],
   [⟨("classical-general"), none, [("classical")], [], some ("Classical"), none, none,
      ⟨8, 10⟩⟩],
   [], []⟩

/-- The assertions of the C4 witness: the same genre claim from Last.fm
and from MusicBrainz. -/
def c4Assertions : List Assertion :=
  [⟨("e1"), ("genre"), Json.str ("classical"), Source.lastFm, none⟩,
   ⟨("e1"), ("genre"), Json.str ("classical"), Source.musicBrainz, none⟩]

/-- The single group key of the C4 witness. -/
def c4GOrd : List (String × String) := [(("genre"), ("Classical"))]

/-- Witness for C4 at the concrete conflict: both sources propose
Classical; the output satisfies the conflict-resolution contract. -/
theorem c4_witness :
    ((∀ r ∈ c4Rules.genre_rules, (r.confidence).Pos) ∧
      (∀ a ∈ c4Assertions, (assertionConfidence a).Pos) ∧
      ValidOrder (rawGenreProposals c4Rules c4Assertions) c4GOrd ∧
      ValidOrder (rawInstrumentProposals c4Rules c4Assertions) []) ∧
    (DedupWinnerSpec c4Rules.source_priority (rawGenreProposals c4Rules c4Assertions)
        (apply_genre_rules c4Rules c4Assertions c4GOrd) ∧
      DedupWinnerSpec c4Rules.source_priority (rawInstrumentProposals c4Rules c4Assertions)
        (apply_instrument_rules c4Rules c4Assertions [])) :=
  ⟨⟨by decide, by decide, by decide, by decide⟩,
    c4_conflict_resolution c4Rules c4Assertions c4GOrd [] (by decide) (by decide) (by decide)
      (by decide)⟩

-- ===========================================================================
-- Claim C5: determinism of the rules engine output
-- ===========================================================================

/-- The master lemma behind the amended C5: two admissible HashMap orders
give outputs that are permutations of each other and agree on the
proposal emitted for each (field, value) key. -/
theorem dedup_order_content (sp : List (String × Nat)) (raw : List ProposedTag)
    (ord1 ord2 : List (String × String)) (h1 : ValidOrder raw ord1)
    (h2 : ValidOrder raw ord2) :
    (deduplicate_proposals sp raw ord1).Perm (deduplicate_proposals sp raw ord2) ∧
    (∀ p1 ∈ deduplicate_proposals sp raw ord1, ∀ p2 ∈ deduplicate_proposals sp raw ord2,
      tagKey p1 = tagKey p2 → p1 = p2) := by
  constructor
  · have hperm : ord1.Perm ord2 := by
      rw [List.perm_ext_iff_of_nodup h1.1 h2.1]
      intro k
      exact ⟨fun hk => h2.2.2 k (h1.2.1 k hk), fun hk => h1.2.2 k (h2.2.1 k hk)⟩
    exact hperm.filterMap _
  · intro p1 hp1 p2 hp2 hk
    rcases List.mem_filterMap.mp hp1 with ⟨k1, _, hw1⟩
    rcases List.mem_filterMap.mp hp2 with ⟨k2, _, hw2⟩
    have e1 : tagKey p1 = k1 := mkWinner_key sp raw k1 p1 hw1
    have e2 : tagKey p2 = k2 := mkWinner_key sp raw k2 p2 hw2
    have hkk : k1 = k2 := by rw [← e1, ← e2, hk]
    rw [hkk] at hw1
    have := hw1.symm.trans hw2
    injection this

/-- C5 as amended: for a fixed rules document and assertion list with
well-formed inputs, two calls of apply_genre_rules (or of
apply_instrument_rules) — that is, two admissible HashMap orders — return
the same proposals up to the order of the (field, value) groups: the
outputs are permutations of each other, and the proposal returned for any
given (field, value) pair, including its winning source, confidence, rule
name and the full ordered alternatives list, is identical across the two
calls; only the relative order of the groups may differ. -/
theorem c5_amended_content_deterministic (rules : MappingRules) (assertions : List Assertion)
    (gOrd1 gOrd2 iOrd1 iOrd2 : List (String × String))
    (hg1 : ValidOrder (rawGenreProposals rules assertions) gOrd1)
    (hg2 : ValidOrder (rawGenreProposals rules assertions) gOrd2)
    (hi1 : ValidOrder (rawInstrumentProposals rules assertions) iOrd1)
    (hi2 : ValidOrder (rawInstrumentProposals rules assertions) iOrd2) :
    ((apply_genre_rules rules assertions gOrd1).Perm (apply_genre_rules rules assertions gOrd2) ∧
      (∀ p1 ∈ apply_genre_rules rules assertions gOrd1,
        ∀ p2 ∈ apply_genre_rules rules assertions gOrd2, tagKey p1 = tagKey p2 → p1 = p2)) ∧
    ((apply_instrument_rules rules assertions iOrd1).Perm
        (apply_instrument_rules rules assertions iOrd2) ∧
      (∀ p1 ∈ apply_instrument_rules rules assertions iOrd1,
        ∀ p2 ∈ apply_instrument_rules rules assertions iOrd2, tagKey p1 = tagKey p2 → p1 = p2)) :=
  ⟨dedup_order_content rules.source_priority _ gOrd1 gOrd2 hg1 hg2,
    dedup_order_content rules.source_priority _ iOrd1 iOrd2 hi1 hi2⟩

/-- The rules document of the C5 counterexample: a single rule emitting
proposals under two distinct (field, value) keys. -/
def c5Rules : MappingRules :=
  ⟨[(("musicbrainz"), 5)],
   [⟨("multi-output"), none, [("classical")], [], some ("Classical"),
      some ("Chamber music"), none, ⟨8, 10⟩⟩],
   [], []⟩

/-- The single assertion of the C5 counterexample. -/
def c5Assertion : Assertion :=
  ⟨("e1"), ("genre"), Json.str ("classical"), Source.musicBrainz, none⟩

/-- One admissible HashMap order over the two groups. -/
def c5Ord1 : List (String × String) := [(("genre"), ("Classical")), (("form"), ("Chamber music"))]

/-- The other admissible HashMap order over the two groups. -/
def c5Ord2 : List (String × String) := [(("form"), ("Chamber music")), (("genre"), ("Classical"))]

/-- C5 counterexample: apply_genre_rules iterates its per-call HashMap of
groups, whose iteration order is randomized per map instance, so two
calls on the same rules document and assertion list may return the same
proposals in different orders — the claimed identical proposal lists in
the same order fail. Both orders below are admissible enumerations of
the group keys, and the two outputs differ. -/
theorem c5_not_order_deterministic :
    ValidOrder (rawGenreProposals c5Rules [c5Assertion]) c5Ord1 ∧
    ValidOrder (rawGenreProposals c5Rules [c5Assertion]) c5Ord2 ∧
    apply_genre_rules c5Rules [c5Assertion] c5Ord1 ≠
      apply_genre_rules c5Rules [c5Assertion] c5Ord2 := by
  refine ⟨⟨by decide, by decide, by decide⟩, ⟨by decide, by decide, by decide⟩, by decide⟩

/-- Witness for the amended C5 at the concrete two-group input: the two
admissible orders give permutation-equal outputs agreeing per key. -/
theorem c5_witness :
    (ValidOrder (rawGenreProposals c5Rules [c5Assertion]) c5Ord1 ∧
      ValidOrder (rawGenreProposals c5Rules [c5Assertion]) c5Ord2 ∧
      ValidOrder (rawInstrumentProposals c5Rules [c5Assertion]) [] ∧
      ValidOrder (rawInstrumentProposals c5Rules [c5Assertion]) []) ∧
    ((apply_genre_rules c5Rules [c5Assertion] c5Ord1).Perm
        (apply_genre_rules c5Rules [c5Assertion] c5Ord2) ∧
      (∀ p1 ∈ apply_genre_rules c5Rules [c5Assertion] c5Ord1,
        ∀ p2 ∈ apply_genre_rules c5Rules [c5Assertion] c5Ord2,
          tagKey p1 = tagKey p2 → p1 = p2)) :=
  ⟨⟨by decide, by decide, by decide, by decide⟩,
    (c5_amended_content_deterministic c5Rules [c5Assertion] c5Ord1 c5Ord2 [] []
      (by decide) (by decide) (by decide) (by decide)).1⟩
